import Mathlib

/-!
SkyGuard Cutdown Pro firmware: a shallow embedding of the flight-control
core (cut rule engine, runtime state machine, termination detector, 1 Hz
scheduler, external-input debounce, servo release latch, and the Iridium
remote-cut command parser), with theorems checking the natural-language
specification against it.

Conventions of the embedding:
 - C float values are modelled as rationals; every value reached in the
   properties below is a small integer, where float and rational
   arithmetic agree exactly, and the isfinite guards of the source are
   identically true.
 - C unsigned integers are modelled as naturals, with explicit reduction
   modulo 2^32 where the source relies on unsigned wrap (the 1 Hz
   scheduler); elsewhere the source's own saturation bounds keep the
   values far from wrapping.
 - The process-wide mutable globals of the source (g_state, g_settings,
   g_readings, the dwell accumulator arrays of cut_logic.cpp) become
   explicit values threaded through the functions.
 - C strings are modelled as lists of characters; the strings involved
   are ASCII without embedded NUL bytes.
-/

namespace SkyGuard

/-- FlightState from state.h. -/
inductive FlightState
  | ground
  | inFlight
  | terminated
  deriving DecidableEq

/-- SystemMode from state.h. -/
inductive SystemMode
  | normal
  | config
  deriving DecidableEq

/-- CutReason from state.h. -/
inductive CutReason
  | none
  | bucketLogic
  | externalInput
  | iridiumRemote
  | manual
  deriving DecidableEq

/-- Condition from settings.h. The runtime dwell accumulator
(true_duration_s in the persisted struct) is owned by the rule engine in
cut_logic.cpp (arrays g_bucketA_true_s / g_bucketB_true_s) and is kept
separately here as well. -/
structure Condition where
  enabled : Bool
  var_id : Nat
  op : Nat
  value : ℚ
  for_seconds : Nat
  deriving DecidableEq

/-- VAR__COUNT sentinel of the VariableId enumeration in settings.h. -/
abbrev VAR__COUNT : Nat := 9

/-- MAX_BUCKET_CONDITIONS from project_config.h. -/
abbrev MAX_BUCKET_CONDITIONS : Nat := 10

/-- NUM_EXTERNAL_INPUTS from project_config.h. -/
abbrev NUM_EXTERNAL_INPUTS : Nat := 2

/-- compare from cut_logic.cpp: dispatch on a CompareOp stored as a
uint8 (OP_LT = 0, OP_LTE, OP_EQ, OP_GTE, OP_GT); unknown operators
compare false. -/
def compare (lhs : ℚ) (op : Nat) (rhs : ℚ) : Bool :=
  match op with
  | 0 => decide (lhs < rhs)
  | 1 => decide (lhs ≤ rhs)
  | 2 => decide (lhs = rhs)
  | 3 => decide (rhs ≤ lhs)
  | 4 => decide (rhs < lhs)
  | _ => false

/-- evalCondition1Hz from cut_logic.cpp. Returns the pair (satisfied,
updated accumulator); the source mutates the accumulator by reference.
The isfinite guards of the source are identically true in the rational
model. -/
def evalCondition1Hz (c : Condition) (var_value : ℚ) (var_valid : Bool)
    (accum_s : ℚ) : Bool × ℚ :=
  if var_valid = false then (false, 0)
  else if compare var_value c.op c.value = false then (false, 0)
  else if c.for_seconds = 0 then (true, 0)
  else
    let a := accum_s + 1
    (decide ((c.for_seconds : ℚ) ≤ a), a)

/-- CutLogicInputs from cut_logic.h: the per-tick snapshot consumed by
the rule engine. The fixed-size arrays vars[VAR__COUNT] and
external_cut_active[NUM_EXTERNAL_INPUTS] are modelled as functions read
at the indices the source loops over. -/
structure CutLogicInputs where
  vars : Nat → ℚ
  vars_valid : Nat → Bool
  launch_detected : Bool
  gps_fix_present : Bool
  external_cut_active : Nat → Bool
  iridium_remote_cut_request : Bool

/-- evalBucketA1Hz from cut_logic.cpp: AND over enabled conditions, with
early return false on the first unsatisfied enabled condition (leaving
the accumulators of the remaining slots untouched) and accumulator
resets for disabled or out-of-range slots. Empty bucket evaluates true.
The parallel arrays g_settings.bucketA / g_bucketA_true_s are passed as
two lists walked in step. -/
def evalBucketA1Hz (inp : CutLogicInputs) :
    List Condition → List ℚ → Bool × List ℚ
  | [], accs => (true, accs)
  | c :: cs, accs =>
    if c.enabled = false then
      let r := evalBucketA1Hz inp cs accs.tail
      (r.1, 0 :: r.2)
    else if VAR__COUNT ≤ c.var_id then
      (false, 0 :: accs.tail)
    else
      let e := evalCondition1Hz c (inp.vars c.var_id) (inp.vars_valid c.var_id)
        (accs.headD 0)
      if e.1 then
        let r := evalBucketA1Hz inp cs accs.tail
        (r.1, e.2 :: r.2)
      else
        (false, e.2 :: accs.tail)

/-- evalBucketB1Hz from cut_logic.cpp: OR over enabled conditions, with
early return true on the first satisfied enabled condition (leaving the
accumulators of the remaining slots untouched); disabled or out-of-range
slots reset their accumulator and are skipped. Empty bucket evaluates
false. -/
def evalBucketB1Hz (inp : CutLogicInputs) :
    List Condition → List ℚ → Bool × List ℚ
  | [], accs => (false, accs)
  | c :: cs, accs =>
    if c.enabled = false then
      let r := evalBucketB1Hz inp cs accs.tail
      (r.1, 0 :: r.2)
    else if VAR__COUNT ≤ c.var_id then
      let r := evalBucketB1Hz inp cs accs.tail
      (r.1, 0 :: r.2)
    else
      let e := evalCondition1Hz c (inp.vars c.var_id) (inp.vars_valid c.var_id)
        (accs.headD 0)
      if e.1 then
        (true, e.2 :: accs.tail)
      else
        let r := evalBucketB1Hz inp cs accs.tail
        (r.1, e.2 :: r.2)

/-- GlobalCutdownConfig from settings.h. -/
structure GlobalCutdownConfig where
  require_launch_before_cut : Bool
  require_gps_fix_before_cut : Bool

/-- ExternalInputConfig from settings.h. -/
structure ExternalInputConfig where
  enabled : Bool
  active_high : Bool
  debounce_ms : Nat

/-- IridiumConfig from settings.h (the fields the core's cut and uplink
logic reads; telemetry cadence fields are not needed by the claims). -/
structure IridiumConfig where
  enabled : Bool
  cutdown_on_command : Bool
  cutdown_token : List Char

/-- TerminationDetectConfig from settings.h. -/
structure TerminationDetectConfig where
  enabled : Bool
  sustain_s : Nat
  use_gps : Bool
  gps_drop_m : ℚ
  use_pressure : Bool
  pressure_rise_hpa : ℚ

/-- DeviceConfig from settings.h (serial number only; the AP password is
not read by the core logic under check). -/
structure DeviceConfig where
  serial_number : Nat

/-- SystemConfig from settings.h (the fields the checked core reads).
The fixed-size arrays bucketA / bucketB are lists (the source uses
MAX_BUCKET_CONDITIONS = 10 slots) and external_inputs is indexed as in
the source's loops. -/
structure SystemConfig where
  global_cutdown : GlobalCutdownConfig
  bucketA : List Condition
  bucketB : List Condition
  external_inputs : Nat → ExternalInputConfig
  iridium : IridiumConfig
  device : DeviceConfig
  term : TerminationDetectConfig

/-- globalsAllowRuleCut from cut_logic.cpp. -/
def globalsAllowRuleCut (cfg : SystemConfig) (inp : CutLogicInputs) : Bool :=
  if cfg.global_cutdown.require_launch_before_cut && !inp.launch_detected then
    false
  else if cfg.global_cutdown.require_gps_fix_before_cut && !inp.gps_fix_present then
    false
  else true

/-- The external-input scan at the top of cutLogicEvaluate1Hz: some input
index below NUM_EXTERNAL_INPUTS is both enabled in settings and reported
debounced-active this tick. -/
def anyEnabledExternalActive (cfg : SystemConfig) (inp : CutLogicInputs) : Bool :=
  (List.range NUM_EXTERNAL_INPUTS).any fun i =>
    (cfg.external_inputs i).enabled && inp.external_cut_active i

/-- CutDecision from cut_logic.h. -/
structure CutDecision where
  should_cut : Bool
  reason : CutReason
  deriving DecidableEq

/-- cutLogicEvaluate1Hz from cut_logic.cpp. Besides the decision it
returns the updated dwell accumulator arrays of both buckets (the source
mutates the file-static arrays g_bucketA_true_s / g_bucketB_true_s; a
blocked gate resets both whole arrays via resetAccumulators). -/
def cutLogicEvaluate1Hz (cfg : SystemConfig) (cut_fired : Bool)
    (inp : CutLogicInputs) (accA accB : List ℚ) :
    CutDecision × List ℚ × List ℚ :=
  if cut_fired then (⟨false, CutReason.none⟩, accA, accB)
  else if anyEnabledExternalActive cfg inp then
    (⟨true, CutReason.externalInput⟩, accA, accB)
  else if cfg.iridium.enabled && cfg.iridium.cutdown_on_command &&
      inp.iridium_remote_cut_request then
    (⟨true, CutReason.iridiumRemote⟩, accA, accB)
  else if globalsAllowRuleCut cfg inp = false then
    (⟨false, CutReason.none⟩, accA.map fun _ => 0, accB.map fun _ => 0)
  else
    let a := evalBucketA1Hz inp cfg.bucketA accA
    let b := evalBucketB1Hz inp cfg.bucketB accB
    if a.1 && b.1 then (⟨true, CutReason.bucketLogic⟩, a.2, b.2)
    else (⟨false, CutReason.none⟩, a.2, b.2)

/-- Scheduler1Hz from state.h. The Boolean flag recording whether
next_tick_ms has been set (the source calls it initialized) is named
started here. -/
structure Scheduler1Hz where
  next_tick_ms : Nat
  started : Bool
  last_elapsed_s : Nat
  deriving DecidableEq

/-- 2^32, the modulus of the uint32 millisecond clock. -/
abbrev U32 : Nat := 4294967296

/-- stateTick1Hz from state.cpp (the revision in src/unnamed/part_000,
which emits a single tick per call and records the elapsed whole seconds
in last_elapsed_s, clamped to uint16). now_ms is the uint32 millisecond
clock value; the source's signed comparison (int32)(now_ms -
next_tick_ms) < 0 is the test that the wrapped uint32 difference lies in
the upper half of the uint32 range. -/
def stateTick1Hz (now_ms : Nat) (s : Scheduler1Hz) : Bool × Scheduler1Hz :=
  if s.started = false then
    (false, ⟨(now_ms + 1000) % U32, true, 0⟩)
  else
    let diff := (now_ms % U32 + (U32 - s.next_tick_ms % U32)) % U32
    if 2147483648 ≤ diff then (false, s)
    else
      let e := 1 + diff / 1000
      (true, ⟨(s.next_tick_ms + e * 1000) % U32, true,
        if 65535 < e then 65535 else e⟩)

/-- RuntimeState from state.h (power_on_ms is omitted: it is written
once from millis() at stateInit and never read by the logic under
check). -/
structure RuntimeState where
  flight_state : FlightState
  system_mode : SystemMode
  sched_1hz : Scheduler1Hz
  t_power_s : Nat
  launch_detected : Bool
  launch_ms : Nat
  t_launch_s : Nat
  cut_fired : Bool
  cut_reason : CutReason
  cut_ms : Nat
  terminated : Bool
  terminated_ms : Nat
  t_terminated_s : Nat
  peak_alt_m : ℚ
  min_pressure_hpa : ℚ
  descent_count_s : Nat
  deriving DecidableEq

/-- stateInit from state.cpp: memset to zero followed by the explicit
field assignments. -/
def stateInit (initial_mode : SystemMode) : RuntimeState :=
  { flight_state := FlightState.ground
    system_mode := initial_mode
    sched_1hz := ⟨0, false, 0⟩
    t_power_s := 0
    launch_detected := false
    launch_ms := 0
    t_launch_s := 0
    cut_fired := false
    cut_reason := CutReason.none
    cut_ms := 0
    terminated := false
    terminated_ms := 0
    t_terminated_s := 0
    peak_alt_m := 0
    min_pressure_hpa := 0
    descent_count_s := 0 }

/-- stateOn1HzTick from state.cpp (src/unnamed/part_000 revision): apply
the recorded elapsed seconds to the tick-domain counters and recompute
the flight state (termination dominates, then launch, else ground). -/
def stateOn1HzTick (s : RuntimeState) : RuntimeState :=
  let dt_s := if 0 < s.sched_1hz.last_elapsed_s then s.sched_1hz.last_elapsed_s else 1
  { s with
    t_power_s := s.t_power_s + dt_s
    t_launch_s := if s.launch_detected then s.t_launch_s + dt_s else 0
    t_terminated_s := if s.terminated then s.t_terminated_s + dt_s else 0
    flight_state :=
      if s.terminated then FlightState.terminated
      else if s.launch_detected then FlightState.inFlight
      else FlightState.ground }

/-- stateSetLaunchDetected from state.cpp. The float sentinels -1e9f and
1e9f are exact. -/
def stateSetLaunchDetected (now_ms : Nat) (s : RuntimeState) : RuntimeState :=
  if s.launch_detected then s
  else
    { s with
      launch_detected := true
      launch_ms := now_ms
      t_launch_s := 0
      peak_alt_m := -1000000000
      min_pressure_hpa := 1000000000
      descent_count_s := 0 }

/-- stateSetTerminated from state.cpp: one-shot latch; also forces the
immediate flight-state transition. -/
def stateSetTerminated (now_ms : Nat) (s : RuntimeState) : RuntimeState :=
  if s.terminated then s
  else
    { s with
      terminated := true
      terminated_ms := now_ms
      t_terminated_s := 0
      flight_state := FlightState.terminated }

/-- stateSetCutFired from state.cpp: one-shot latch recording the cut
reason, then stateSetTerminated (a cut always implies termination). -/
def stateSetCutFired (reason : CutReason) (now_ms : Nat) (s : RuntimeState) :
    RuntimeState :=
  if s.cut_fired then s
  else
    stateSetTerminated now_ms
      { s with cut_fired := true, cut_reason := reason, cut_ms := now_ms }

/-- stateSetSystemMode from state.cpp. -/
def stateSetSystemMode (mode : SystemMode) (s : RuntimeState) : RuntimeState :=
  { s with system_mode := mode }

/-- The fields of the Readings snapshot (readings.h) read by the
termination detector; the other snapshot fields are not consumed by the
state-machine code under check. -/
structure Readings where
  gps_fix_valid : Bool
  gps_alt_valid : Bool
  gps_alt_m : ℚ
  pressure_valid : Bool
  pressure_hpa : ℚ

/-- stateUpdateTerminationDetector1Hz from state.cpp: guarded by the
termination latch, the in-flight state and the configuration enable;
updates the running peak altitude and minimum pressure, evaluates the
descent predicate, maintains the saturating descent_count_s, and latches
termination once the count reaches sustain_s. -/
def stateUpdateTerminationDetector1Hz (tcfg : TerminationDetectConfig)
    (r : Readings) (now_ms : Nat) (s : RuntimeState) : RuntimeState :=
  if s.terminated then s
  else if s.flight_state ≠ FlightState.inFlight then s
  else if tcfg.enabled = false then s
  else
    let peak :=
      if tcfg.use_gps && r.gps_fix_valid && r.gps_alt_valid then
        (if s.peak_alt_m < r.gps_alt_m then r.gps_alt_m else s.peak_alt_m)
      else s.peak_alt_m
    let gps_condition := tcfg.use_gps && r.gps_fix_valid && r.gps_alt_valid &&
      decide (tcfg.gps_drop_m ≤ peak - r.gps_alt_m)
    let pmin :=
      if tcfg.use_pressure && r.pressure_valid then
        (if r.pressure_hpa < s.min_pressure_hpa then r.pressure_hpa
         else s.min_pressure_hpa)
      else s.min_pressure_hpa
    let pressure_condition := tcfg.use_pressure && r.pressure_valid &&
      decide (tcfg.pressure_rise_hpa ≤ r.pressure_hpa - pmin)
    let descent_now := gps_condition || pressure_condition
    let cnt :=
      if descent_now then
        (if s.descent_count_s < 65535 then s.descent_count_s + 1
         else s.descent_count_s)
      else 0
    let s2 := { s with peak_alt_m := peak, min_pressure_hpa := pmin,
                       descent_count_s := cnt }
    if tcfg.sustain_s ≤ cnt then stateSetTerminated now_ms s2 else s2

/-- The mutating operations on the runtime state g_state (state.cpp), as
invoked from the firmware's call sites. -/
inductive StateOp
  | tick1Hz (now_ms : Nat)
  | on1HzTick
  | setLaunchDetected (now_ms : Nat)
  | setTerminated (now_ms : Nat)
  | setCutFired (reason : CutReason) (now_ms : Nat)
  | setSystemMode (mode : SystemMode)
  | termDetector (tcfg : TerminationDetectConfig) (r : Readings) (now_ms : Nat)

/-- Apply one runtime-state operation. -/
def applyStateOp : StateOp → RuntimeState → RuntimeState
  | StateOp.tick1Hz now_ms, s =>
    { s with sched_1hz := (stateTick1Hz now_ms s.sched_1hz).2 }
  | StateOp.on1HzTick, s => stateOn1HzTick s
  | StateOp.setLaunchDetected n, s => stateSetLaunchDetected n s
  | StateOp.setTerminated n, s => stateSetTerminated n s
  | StateOp.setCutFired r n, s => stateSetCutFired r n s
  | StateOp.setSystemMode m, s => stateSetSystemMode m s
  | StateOp.termDetector t r n, s => stateUpdateTerminationDetector1Hz t r n s

/-- Side condition recording how the operations are invoked in the
firmware: every stateSetCutFired call site (main.cpp and
cutLogicUpdate1Hz) passes the reason of a positive cut decision, which
is never CUT_REASON_NONE. -/
def stateOpOk : StateOp → Prop
  | StateOp.setCutFired r _ => r ≠ CutReason.none
  | _ => True

/-- The runtime states reachable from stateInit through the firmware's
state operations. -/
inductive StateReachable : RuntimeState → Prop
  | init (m : SystemMode) : StateReachable (stateInit m)
  | step {s : RuntimeState} (op : StateOp) (h : StateReachable s)
      (hok : stateOpOk op) : StateReachable (applyStateOp op s)

/-- Per-input runtime fields of the Readings snapshot (readings.h). -/
structure ExtInput where
  raw_active : Bool
  debounced_active : Bool
  active_accum_ms : Nat
  deriving DecidableEq

/-- levelToActive from readings.cpp. -/
def levelToActive (pin_level_high : Bool) (active_high : Bool) : Bool :=
  if active_high then pin_level_high else !pin_level_high

/-- updateExternalInput1Hz from readings.cpp (src/unnamed/part_003): a
disabled input is cleared; an enabled one samples the pin, accumulates
1000 ms per active tick saturating at 60,000 ms, resets on an inactive
tick, and derives debounced_active by comparing the accumulator with the
configured debounce. -/
def updateExternalInput1Hz (cfg : ExternalInputConfig)
    (pin_level_high : Bool) (st : ExtInput) : ExtInput :=
  if cfg.enabled = false then ⟨false, false, 0⟩
  else
    let raw_active := levelToActive pin_level_high cfg.active_high
    let accum :=
      if raw_active then
        (let a := st.active_accum_ms + 1000
         if 60000 < a then 60000 else a)
      else 0
    ⟨raw_active, decide (cfg.debounce_ms ≤ accum), accum⟩

/-- initExternalInputs from readings.cpp zeroes each channel. -/
def extInputInit : ExtInput := ⟨false, false, 0⟩

/-- The states of one external-input channel reachable from readingsInit
through 1 Hz updates under a fixed configuration (configuration is
read-only outside config mode, and leaving config mode reboots). -/
inductive ExtReachable (cfg : ExternalInputConfig) : ExtInput → Prop
  | init : ExtReachable cfg extInputInit
  | step {st : ExtInput} (pin_level_high : Bool) (h : ExtReachable cfg st) :
      ExtReachable cfg (updateExternalInput1Hz cfg pin_level_high st)

/-- ServoReleaseState from servo_release.h. -/
inductive ServoReleaseState
  | unknown
  | locked
  | released
  deriving DecidableEq

/-- The module state of servo_release.cpp: the attach flag, the one-shot
release latch and the last commanded state (the physical servo angle
writes have no further effect on the logic). -/
structure ServoModule where
  attached : Bool
  released_latched : Bool
  state : ServoReleaseState
  deriving DecidableEq

/-- ensureAttached from servo_release.cpp. Whether a fresh hardware
attach succeeds is the environment's choice, passed in as hw_attach_ok;
once attached the function succeeds without touching the hardware. -/
def ensureAttached (hw_attach_ok : Bool) (s : ServoModule) :
    Bool × ServoModule :=
  if s.attached then (true, s)
  else if hw_attach_ok then (true, { s with attached := true })
  else (false, { s with state := ServoReleaseState.unknown })

/-- servoReleaseLock from servo_release.cpp: allowed only when no
release has been latched. -/
def servoReleaseLock (hw_attach_ok : Bool) (s : ServoModule) :
    Bool × ServoModule :=
  let e := ensureAttached hw_attach_ok s
  if e.1 = false then (false, e.2)
  else if e.2.released_latched then
    (false, { e.2 with state := ServoReleaseState.released })
  else (true, { e.2 with state := ServoReleaseState.locked })

/-- servoReleaseRelease from servo_release.cpp: one-shot latch;
subsequent calls are ignored but still return true. -/
def servoReleaseRelease (hw_attach_ok : Bool) (s : ServoModule) :
    Bool × ServoModule :=
  let e := ensureAttached hw_attach_ok s
  if e.1 = false then (false, e.2)
  else if e.2.released_latched = false then
    (true, { e.2 with released_latched := true,
                      state := ServoReleaseState.released })
  else (true, e.2)

/-- servoReleaseWiggle from servo_release.cpp: command the release
position without latching, then servoReleaseLock. -/
def servoReleaseWiggle (hw_attach_ok : Bool) (s : ServoModule) : ServoModule :=
  let e := ensureAttached hw_attach_ok s
  if e.1 = false then e.2
  else (servoReleaseLock hw_attach_ok e.2).2

/-- servoReleaseIsReleased from servo_release.cpp. -/
def servoReleaseIsReleased (s : ServoModule) : Bool := s.released_latched

/-- servoReleaseInit from servo_release.cpp: clear the latch, attach,
and command LOCK. -/
def servoReleaseInit (hw_attach_ok : Bool) (prev : ServoModule) : ServoModule :=
  let s0 := { prev with released_latched := false,
                        state := ServoReleaseState.unknown }
  let e := ensureAttached hw_attach_ok s0
  if e.1 = false then e.2
  else (servoReleaseLock hw_attach_ok e.2).2

/-- The commands the rest of the firmware can issue to the release
module after initialization (servo_release.h). -/
inductive ServoCmd
  | lock (hw_attach_ok : Bool)
  | release (hw_attach_ok : Bool)
  | wiggle (hw_attach_ok : Bool)

/-- Apply one release-module command, keeping the resulting module
state. -/
def applyServoCmd : ServoCmd → ServoModule → ServoModule
  | ServoCmd.lock hw, s => (servoReleaseLock hw s).2
  | ServoCmd.release hw, s => (servoReleaseRelease hw s).2
  | ServoCmd.wiggle hw, s => servoReleaseWiggle hw s

/-- Apply a sequence of release-module commands. -/
def applyServoCmds : List ServoCmd → ServoModule → ServoModule
  | [], s => s
  | c :: cs, s => applyServoCmds cs (applyServoCmd c s)

/-- Call servoReleaseRelease n times in sequence (each call in the same
attach environment), keeping the final module state. -/
def releaseN (hw_attach_ok : Bool) : Nat → ServoModule → ServoModule
  | 0, s => s
  | n + 1, s => releaseN hw_attach_ok n (servoReleaseRelease hw_attach_ok s).2

/-- The rule-engine runtime owned by cut_logic.cpp: the cut latch it
reads from g_state plus the two dwell-accumulator arrays. -/
structure CutEngineState where
  cut_fired : Bool
  accA : List ℚ
  accB : List ℚ
  deriving DecidableEq

/-- cutLogicInit resets the accumulators; the cut latch is clear at
boot. -/
def cutEngineInit (cfg : SystemConfig) : CutEngineState :=
  ⟨false, List.replicate cfg.bucketA.length 0,
    List.replicate cfg.bucketB.length 0⟩

/-- One 1 Hz iteration of the firmware loop as it affects the rule
engine (main.cpp): evaluate the cut logic, then latch the cut on a
positive decision via stateSetCutFired. -/
def cutEngineStep (cfg : SystemConfig) (inp : CutLogicInputs)
    (s : CutEngineState) : CutEngineState :=
  let r := cutLogicEvaluate1Hz cfg s.cut_fired inp s.accA s.accB
  ⟨s.cut_fired || r.1.should_cut, r.2.1, r.2.2⟩

/-- Rule-engine states reachable in exactly n ticks from cutLogicInit
under a fixed configuration. -/
inductive CutEngineReachableN (cfg : SystemConfig) :
    Nat → CutEngineState → Prop
  | init : CutEngineReachableN cfg 0 (cutEngineInit cfg)
  | step {n : Nat} {s : CutEngineState} (inp : CutLogicInputs)
      (h : CutEngineReachableN cfg n s) :
      CutEngineReachableN cfg (n + 1) (cutEngineStep cfg inp s)

/-- ASCII decimal digit test, as the source's range check. -/
def isDigitCh (c : Char) : Bool := decide ('0' ≤ c) && decide (c ≤ '9')

/-- Numeric value of an ASCII decimal digit. -/
def digitVal (c : Char) : Nat := c.toNat - '0'.toNat

/-- The serial-parsing loop of parseCutCommand (iridium_link.cpp):
accumulate decimal digits, rejecting as soon as the running value
exceeds 9,999,999; at the first non-digit return the value, whether any
digit was consumed, and the rest of the message. -/
def parseSerialLoop (serial : Nat) (any : Bool) :
    List Char → Option (Nat × Bool × List Char)
  | [] => some (serial, any, [])
  | c :: cs =>
    if isDigitCh c then
      let s2 := serial * 10 + digitVal c
      if 9999999 < s2 then Option.none
      else parseSerialLoop s2 true cs
    else some (serial, any, c :: cs)

/-- The token-copy loop of parseCutCommand: take at most 31 characters,
stopping at the first CR or LF. -/
def takeTokenRx : Nat → List Char → List Char
  | 0, _ => []
  | _, [] => []
  | n + 1, c :: cs =>
    if c == '\r' || c == '\n' then []
    else c :: takeTokenRx n cs

/-- The right-trim loop of parseCutCommand: drop trailing spaces and
tabs. -/
def rtrimSpTab (l : List Char) : List Char :=
  (l.reverse.dropWhile fun c => c == ' ' || c == '\t').reverse

/-- strncmp(a, b, n) == 0 for null-terminated strings modelled as char
lists: compare pairwise, stopping at the n-character cap or at the
terminator of both strings. -/
def strncmpEq : Nat → List Char → List Char → Bool
  | 0, _, _ => true
  | _ + 1, [], [] => true
  | _ + 1, [], _ :: _ => false
  | _ + 1, _ :: _, [] => false
  | n + 1, x :: xs, y :: ys => x == y && strncmpEq n xs ys

/-- parseCutCommand from iridium_link.cpp. The device configuration
enters through the serial number, the cutdown_on_command flag and the
cutdown_token (a null-terminated 16-byte buffer in the source, hence at
most 15 characters). The message is the ASCII mobile-terminated payload
(no embedded NUL). -/
def parseCutCommand (serial_number : Nat) (cutdown_on_command : Bool)
    (cutdown_token : List Char) (msg : List Char) : Bool :=
  match msg with
  | c0 :: c1 :: c2 :: c3 :: rest =>
    if !(c0 == 'C' || c0 == 'c') then false
    else if !(c1 == 'U' || c1 == 'u') then false
    else if !(c2 == 'T' || c2 == 't') then false
    else if !(c3 == ',') then false
    else
      match parseSerialLoop 0 false rest with
      | Option.none => false
      | some (serial, any, after) =>
        if any = false then false
        else
          match after with
          | [] => false
          | d :: tokenPart =>
            if (d == ',') = false then false
            else
              let token_rx := rtrimSpTab (takeTokenRx 31 tokenPart)
              if serial ≠ serial_number then false
              else if cutdown_on_command = false then false
              else if strncmpEq 16 token_rx cutdown_token = false then false
              else true
  | _ => false

/-- Trailing-whitespace characters allowed by the spec's command
format. -/
def isTrailWS (c : Char) : Bool :=
  c == ' ' || c == '\t' || c == '\r' || c == '\n'

/-- Value of a decimal digit string. -/
def digitsVal (l : List Char) : Nat :=
  l.foldl (fun a c => a * 10 + digitVal c) 0

/-- Modelled from the spec (section 6, boundary behavior): the message
is ASCII CUT (case-insensitive on the literal), a comma, a decimal
integer equal to the device serial, a comma, the configured token
exactly, and optional trailing whitespace. This definition follows the
spec's words and is compared against parseCutCommand. -/
def specCutFormat (serial_number : Nat) (cutdown_token : List Char)
    (msg : List Char) : Bool :=
  match msg with
  | c0 :: c1 :: c2 :: c3 :: rest =>
    (c0 == 'C' || c0 == 'c') && (c1 == 'U' || c1 == 'u') &&
    (c2 == 'T' || c2 == 't') && (c3 == ',') &&
    (let ds := rest.takeWhile isDigitCh
     !ds.isEmpty && (digitsVal ds == serial_number) &&
     (match rest.dropWhile isDigitCh with
      | [] => false
      | d :: r3 =>
        (d == ',') &&
        (r3.take cutdown_token.length == cutdown_token) &&
        (r3.drop cutdown_token.length).all isTrailWS))
  | _ => false

/-- The spec's command format amended to the source's behavior: the
token part of the message is read only up to the first CR or LF and at
most 31 characters, with trailing spaces and tabs stripped, and must
then equal the configured token; everything beyond the first CR or LF is
ignored rather than rejected. -/
def specCutFormatAmended (serial_number : Nat) (cutdown_token : List Char)
    (msg : List Char) : Bool :=
  match msg with
  | c0 :: c1 :: c2 :: c3 :: rest =>
    (c0 == 'C' || c0 == 'c') && (c1 == 'U' || c1 == 'u') &&
    (c2 == 'T' || c2 == 't') && (c3 == ',') &&
    (let ds := rest.takeWhile isDigitCh
     !ds.isEmpty && (digitsVal ds == serial_number) &&
     (match rest.dropWhile isDigitCh with
      | [] => false
      | d :: r3 =>
        (d == ',') &&
        (rtrimSpTab ((r3.takeWhile fun c => !(c == '\r' || c == '\n')).take 31)
          == cutdown_token)))
  | _ => false

/-- Configuration used by the concrete witnesses: both gates off, empty
buckets, both external inputs enabled active-high with 50 ms debounce,
Iridium remote cut enabled with the default token, serial 1234567,
termination detector enabled (sustain 15 s, GPS drop 60 m, pressure
rise 50 hPa). -/
def wCfg : SystemConfig :=
  { global_cutdown := ⟨false, false⟩
    bucketA := []
    bucketB := []
    external_inputs := fun _ => ⟨true, true, 50⟩
    iridium := ⟨true, true, "CUTDOWN".toList⟩
    device := ⟨1234567⟩
    term := ⟨true, 15, true, 60, true, 50⟩ }

/-- Inputs used by the concrete witnesses: all variables valid and zero,
launch detected, GPS fix present, both external inputs debounced-active,
no remote-cut request. -/
def wInp : CutLogicInputs :=
  { vars := fun _ => 0
    vars_valid := fun _ => true
    launch_detected := true
    gps_fix_present := true
    external_cut_active := fun _ => true
    iridium_remote_cut_request := false }

/-- C1: the per-tick cut decision applies a fixed priority with first
match winning — once cut_fired is set the evaluation returns should_cut
false; otherwise an enabled, debounced-active external input yields
reason ExternalInput regardless of the bucket rules; otherwise an
enabled remote-cut request yields IridiumRemote; otherwise a cut fires,
with reason BucketLogic, exactly when the global gates pass and Bucket A
and Bucket B are both true. -/
theorem cut_decision_priority (cfg : SystemConfig) (fired : Bool)
    (inp : CutLogicInputs) (accA accB : List ℚ) :
    (fired = true →
      (cutLogicEvaluate1Hz cfg fired inp accA accB).1.should_cut = false)
    ∧ (fired = false → anyEnabledExternalActive cfg inp = true →
      (cutLogicEvaluate1Hz cfg fired inp accA accB).1 =
        ⟨true, CutReason.externalInput⟩)
    ∧ (fired = false → anyEnabledExternalActive cfg inp = false →
      (cfg.iridium.enabled && cfg.iridium.cutdown_on_command &&
        inp.iridium_remote_cut_request) = true →
      (cutLogicEvaluate1Hz cfg fired inp accA accB).1 =
        ⟨true, CutReason.iridiumRemote⟩)
    ∧ (fired = false → anyEnabledExternalActive cfg inp = false →
      (cfg.iridium.enabled && cfg.iridium.cutdown_on_command &&
        inp.iridium_remote_cut_request) = false →
      ((cutLogicEvaluate1Hz cfg fired inp accA accB).1.should_cut = true ↔
        (globalsAllowRuleCut cfg inp = true ∧
         (evalBucketA1Hz inp cfg.bucketA accA).1 = true ∧
         (evalBucketB1Hz inp cfg.bucketB accB).1 = true))
      ∧ ((cutLogicEvaluate1Hz cfg fired inp accA accB).1.should_cut = true →
        (cutLogicEvaluate1Hz cfg fired inp accA accB).1.reason =
          CutReason.bucketLogic)) := by
  refine ⟨?_, ?_, ?_, ?_⟩
  · intro h1
    simp [cutLogicEvaluate1Hz, h1]
  · intro h1 h2
    simp [cutLogicEvaluate1Hz, h1, h2]
  · intro h1 h2 h3
    simp [cutLogicEvaluate1Hz, h1, h2, h3]
  · intro h1 h2 h3
    by_cases hg : globalsAllowRuleCut cfg inp = false
    · constructor
      · simp [cutLogicEvaluate1Hz, h1, h2, h3, hg]
      · intro habs
        simp [cutLogicEvaluate1Hz, h1, h2, h3, hg] at habs
    · have hg2 : globalsAllowRuleCut cfg inp = true := by
        cases hgv : globalsAllowRuleCut cfg inp
        · exact absurd hgv hg
        · rfl
      constructor
      · by_cases ha : (evalBucketA1Hz inp cfg.bucketA accA).1 = true
        · by_cases hb : (evalBucketB1Hz inp cfg.bucketB accB).1 = true
          · simp [cutLogicEvaluate1Hz, h1, h2, h3, hg2, ha, hb]
          · simp [cutLogicEvaluate1Hz, h1, h2, h3, hg2, ha, hb]
        · simp [cutLogicEvaluate1Hz, h1, h2, h3, hg2, ha]
      · intro hcut
        by_cases ha : (evalBucketA1Hz inp cfg.bucketA accA).1 = true
        · by_cases hb : (evalBucketB1Hz inp cfg.bucketB accB).1 = true
          · simp [cutLogicEvaluate1Hz, h1, h2, h3, hg2, ha, hb]
          · simp [cutLogicEvaluate1Hz, h1, h2, h3, hg2, ha, hb] at hcut
        · simp [cutLogicEvaluate1Hz, h1, h2, h3, hg2, ha] at hcut

/-- Witness for C1: with the cut latch set the decision is negative, and
on a fresh latch with external input 0 active the decision is an
ExternalInput cut. -/
theorem cut_decision_priority_witness :
    (cutLogicEvaluate1Hz wCfg true wInp [] []).1.should_cut = false ∧
    (cutLogicEvaluate1Hz wCfg false wInp [] []).1 =
      ⟨true, CutReason.externalInput⟩ :=
  ⟨(cut_decision_priority wCfg true wInp [] []).1 rfl,
   (cut_decision_priority wCfg false wInp [] []).2.1 rfl (by decide)⟩

/-- C4: a Bucket A with zero enabled conditions evaluates true and a
Bucket B with zero enabled conditions evaluates false, on any tick and
any accumulator contents. -/
theorem empty_buckets (inp : CutLogicInputs) (conds : List Condition)
    (accsA accsB : List ℚ) (h : ∀ c ∈ conds, c.enabled = false) :
    (evalBucketA1Hz inp conds accsA).1 = true ∧
    (evalBucketB1Hz inp conds accsB).1 = false := by
  induction conds generalizing accsA accsB with
  | nil => exact ⟨rfl, rfl⟩
  | cons c cs ih =>
    have hc : c.enabled = false := h c (by simp)
    have hcs : ∀ x ∈ cs, x.enabled = false := fun x hx => h x (by simp [hx])
    constructor
    · have := (ih accsA.tail accsB.tail hcs).1
      simp [evalBucketA1Hz, hc, this]
    · have := (ih accsA.tail accsB.tail hcs).2
      simp [evalBucketB1Hz, hc, this]

/-- Witness for C4: the empty buckets of the witness configuration. -/
theorem empty_buckets_witness :
    (evalBucketA1Hz wInp [] []).1 = true ∧
    (evalBucketB1Hz wInp [] []).1 = false :=
  empty_buckets wInp [] [] [] (by simp)

/-- The updated activity accumulator never exceeds the 60,000 ms cap. -/
theorem updateExternalInput1Hz_accum_le (cfg : ExternalInputConfig)
    (b : Bool) (st : ExtInput) :
    (updateExternalInput1Hz cfg b st).active_accum_ms ≤ 60000 := by
  unfold updateExternalInput1Hz
  split
  · simp
  · dsimp only
    split
    · split
      · omega
      · omega
    · omega

/-- The updated debounced flag is the comparison of the updated
accumulator with the configured debounce (false when disabled). -/
theorem updateExternalInput1Hz_debounced (cfg : ExternalInputConfig)
    (b : Bool) (st : ExtInput) (hdeb : 60000 < cfg.debounce_ms) :
    (updateExternalInput1Hz cfg b st).debounced_active = false := by
  have hacc := updateExternalInput1Hz_accum_le cfg b st
  unfold updateExternalInput1Hz at hacc ⊢
  split at hacc
  · split
    · rfl
    · simp_all
  · split
    · simp_all
    · dsimp only at hacc ⊢
      simp only [decide_eq_false_iff_not]
      omega

/-- C10: with a configured debounce above the 60,000 ms saturation cap
of the 1 Hz activity accumulator, debounced_active is false in every
reachable state of the input channel, so the enabled-and-active test of
the cut decision's external scan never holds for this input. -/
theorem high_debounce_never_active (cfg : ExternalInputConfig)
    (hdeb : 60000 < cfg.debounce_ms) {st : ExtInput}
    (h : ExtReachable cfg st) :
    st.debounced_active = false ∧
    (cfg.enabled && st.debounced_active) = false := by
  have main : st.debounced_active = false := by
    induction h with
    | init => rfl
    | step pin h ih => exact updateExternalInput1Hz_debounced cfg pin _ hdeb
  exact ⟨main, by simp [main]⟩

/-- Witness for C10: a debounce of 60,001 ms on an enabled active-high
input, at the initial channel state. -/
theorem high_debounce_never_active_witness :
    60000 < (60001 : Nat) ∧
    (extInputInit.debounced_active = false ∧
      ((⟨true, true, 60001⟩ : ExternalInputConfig).enabled &&
        extInputInit.debounced_active) = false) :=
  ⟨by decide,
   high_debounce_never_active ⟨true, true, 60001⟩ (by decide) ExtReachable.init⟩

/-- The runtime-state invariant of claim C2: a cut implies termination,
termination implies the Terminated flight state, and the cut reason is
None exactly when no cut has fired. -/
def stateInv (s : RuntimeState) : Prop :=
  (s.cut_fired = true → s.terminated = true) ∧
  (s.terminated = true → s.flight_state = FlightState.terminated) ∧
  (s.cut_reason = CutReason.none ↔ s.cut_fired = false)

/-- stateSetTerminated preserves the runtime-state invariant. -/
theorem stateSetTerminated_inv (n : Nat) {s : RuntimeState}
    (h : stateInv s) : stateInv (stateSetTerminated n s) := by
  obtain ⟨i1, i2, i3⟩ := h
  unfold stateSetTerminated
  split
  · exact ⟨i1, i2, i3⟩
  · exact ⟨fun _ => rfl, fun _ => rfl, i3⟩

/-- stateSetCutFired with a real cut reason preserves the runtime-state
invariant. -/
theorem stateSetCutFired_inv (r : CutReason) (hr : r ≠ CutReason.none)
    (n : Nat) {s : RuntimeState} (h : stateInv s) :
    stateInv (stateSetCutFired r n s) := by
  obtain ⟨i1, i2, i3⟩ := h
  unfold stateSetCutFired stateSetTerminated
  split
  · exact ⟨i1, i2, i3⟩
  · dsimp only
    split
    · rename_i hterm
      exact ⟨fun _ => hterm, fun _ => i2 hterm,
        iff_of_false hr (by simp)⟩
    · exact ⟨fun _ => rfl, fun _ => rfl, iff_of_false hr (by simp)⟩

/-- A conditional stateSetTerminated preserves the runtime-state
invariant. -/
theorem stateInv_ite_setTerminated (c : Prop) [Decidable c] (n : Nat)
    {s : RuntimeState} (h : stateInv s) :
    stateInv (if c then stateSetTerminated n s else s) := by
  split
  · exact stateSetTerminated_inv n h
  · exact h

/-- C2: in every reachable runtime state, cut_fired implies terminated,
terminated implies flight_state Terminated, and cut_reason is None iff
cut_fired is false; the invariant is established by stateInit and
preserved by every mutating state operation, including stateSetCutFired,
stateSetTerminated and the per-tick flight-state recompute. -/
theorem runtime_state_invariants {s : RuntimeState}
    (h : StateReachable s) : stateInv s := by
  induction h with
  | init m => exact ⟨by simp [stateInit], by simp [stateInit], by simp [stateInit]⟩
  | @step s0 op hs hok ih =>
    obtain ⟨i1, i2, i3⟩ := ih
    cases op with
    | tick1Hz n => exact ⟨i1, i2, i3⟩
    | on1HzTick =>
      show stateInv (stateOn1HzTick s0)
      refine ⟨i1, ?_, i3⟩
      intro ht
      have ht2 : s0.terminated = true := ht
      simp [stateOn1HzTick, ht2]
    | setLaunchDetected n =>
      show stateInv (stateSetLaunchDetected n s0)
      unfold stateSetLaunchDetected
      split
      · exact ⟨i1, i2, i3⟩
      · exact ⟨i1, i2, i3⟩
    | setTerminated n => exact stateSetTerminated_inv n ⟨i1, i2, i3⟩
    | setCutFired r n => exact stateSetCutFired_inv r hok n ⟨i1, i2, i3⟩
    | setSystemMode m => exact ⟨i1, i2, i3⟩
    | termDetector t rd n =>
      show stateInv (stateUpdateTerminationDetector1Hz t rd n s0)
      unfold stateUpdateTerminationDetector1Hz
      split
      · exact ⟨i1, i2, i3⟩
      · split
        · exact ⟨i1, i2, i3⟩
        · split
          · exact ⟨i1, i2, i3⟩
          · dsimp only
            exact stateInv_ite_setTerminated _ n ⟨i1, i2, i3⟩

/-- Witness for C2: the invariant at the freshly initialized runtime
state. -/
theorem runtime_state_invariants_witness :
    stateInv (stateInit SystemMode.normal) :=
  runtime_state_invariants (StateReachable.init SystemMode.normal)

/-- On an attached module a Release call succeeds, and its result either
keeps an existing latch or sets it. -/
theorem servoReleaseRelease_attached (hw : Bool) (s : ServoModule)
    (h : s.attached = true) :
    (servoReleaseRelease hw s).1 = true ∧
    (servoReleaseRelease hw s).2 =
      (if s.released_latched then s
       else { s with released_latched := true,
                     state := ServoReleaseState.released }) := by
  unfold servoReleaseRelease ensureAttached
  by_cases hr : s.released_latched
  · simp [h, hr]
  · simp [h, hr]

/-- The released-latch invariant for claim C3: attached, latched, and in
the Released state. -/
def releasedInv (s : ServoModule) : Prop :=
  s.attached = true ∧ s.released_latched = true ∧
  s.state = ServoReleaseState.released

/-- On an attached latched module a Release call is the identity and
returns success. -/
theorem servoReleaseRelease_fix (hw : Bool) {t : ServoModule}
    (h1 : t.attached = true) (h2 : t.released_latched = true) :
    (servoReleaseRelease hw t).1 = true ∧ (servoReleaseRelease hw t).2 = t := by
  unfold servoReleaseRelease ensureAttached
  simp [h1, h2]

/-- Iterated Release calls on an attached latched module are the
identity. -/
theorem releaseN_fix (hw : Bool) {t : ServoModule} (h1 : t.attached = true)
    (h2 : t.released_latched = true) (k : Nat) : releaseN hw k t = t := by
  induction k with
  | zero => rfl
  | succ m ih =>
    show releaseN hw m (servoReleaseRelease hw t).2 = t
    rw [(servoReleaseRelease_fix hw h1 h2).2, ih]

/-- Release preserves the attach flag and latches it on an attached
module. -/
theorem servoReleaseRelease_latches (hw : Bool) (s : ServoModule)
    (h : s.attached = true) :
    (servoReleaseRelease hw s).2.attached = true ∧
    (servoReleaseRelease hw s).2.released_latched = true := by
  rw [(servoReleaseRelease_attached hw s h).2]
  by_cases hr : s.released_latched
  · simp [hr, h]
  · simp [hr, h]

/-- Every release-module command preserves the released-latch
invariant. -/
theorem releasedInv_applyServoCmd (c : ServoCmd) {s : ServoModule}
    (h : releasedInv s) : releasedInv (applyServoCmd c s) := by
  obtain ⟨h1, h2, h3⟩ := h
  cases c with
  | lock hw =>
    show releasedInv (servoReleaseLock hw s).2
    unfold servoReleaseLock ensureAttached
    simp [h1, h2, releasedInv]
  | release hw =>
    show releasedInv (servoReleaseRelease hw s).2
    rw [(servoReleaseRelease_fix hw h1 h2).2]
    exact ⟨h1, h2, h3⟩
  | wiggle hw =>
    show releasedInv (servoReleaseWiggle hw s)
    unfold servoReleaseWiggle servoReleaseLock ensureAttached
    simp [h1, h2, releasedInv]

/-- Command sequences preserve the released-latch invariant. -/
theorem releasedInv_applyServoCmds (cmds : List ServoCmd) {s : ServoModule}
    (h : releasedInv s) : releasedInv (applyServoCmds cmds s) := by
  induction cmds generalizing s with
  | nil => exact h
  | cons c cs ih => exact ih (releasedInv_applyServoCmd c h)

/-- Lock on a released module is rejected and leaves it released. -/
theorem servoReleaseLock_rejected (hw : Bool) {u : ServoModule}
    (h : releasedInv u) :
    (servoReleaseLock hw u).1 = false ∧
    (servoReleaseLock hw u).2.state = ServoReleaseState.released ∧
    (servoReleaseLock hw u).2.released_latched = true := by
  obtain ⟨h1, h2, h3⟩ := h
  unfold servoReleaseLock ensureAttached
  simp [h1, h2]

/-- C3: after a successful initialization (module attached, latch clear)
calling Release n times (n at least 1) is the single Release call, every
call in the sequence returns success, and after the latch every command
sequence leaves the module released with released? true, while any Lock
command is rejected and keeps the Released state. -/
theorem release_latch (s : ServoModule) (hatt : s.attached = true)
    (hrel : s.released_latched = false) (n : Nat) (hn : 1 ≤ n) (hw : Bool)
    (cmds : List ServoCmd) :
    releaseN hw n s = (servoReleaseRelease hw s).2
    ∧ (∀ k : Nat, (servoReleaseRelease hw (releaseN hw k s)).1 = true)
    ∧ servoReleaseIsReleased
        (applyServoCmds cmds (servoReleaseRelease hw s).2) = true
    ∧ (applyServoCmds cmds (servoReleaseRelease hw s).2).state =
        ServoReleaseState.released
    ∧ (servoReleaseLock hw
        (applyServoCmds cmds (servoReleaseRelease hw s).2)).1 = false
    ∧ (servoReleaseLock hw
        (applyServoCmds cmds (servoReleaseRelease hw s).2)).2.state =
        ServoReleaseState.released
    ∧ servoReleaseIsReleased
        (servoReleaseLock hw
          (applyServoCmds cmds (servoReleaseRelease hw s).2)).2 = true := by
  have ht := servoReleaseRelease_latches hw s hatt
  have htinv : releasedInv (servoReleaseRelease hw s).2 := by
    refine ⟨ht.1, ht.2, ?_⟩
    rw [(servoReleaseRelease_attached hw s hatt).2]
    simp [hrel]
  have hNeq : releaseN hw n s = (servoReleaseRelease hw s).2 := by
    obtain ⟨m, rfl⟩ : ∃ m, n = m + 1 := ⟨n - 1, by omega⟩
    show releaseN hw m (servoReleaseRelease hw s).2 = _
    exact releaseN_fix hw ht.1 ht.2 m
  have huinv := releasedInv_applyServoCmds cmds htinv
  have hlock := servoReleaseLock_rejected hw huinv
  refine ⟨hNeq, ?_, huinv.2.1, huinv.2.2, hlock.1, hlock.2.1, hlock.2.2⟩
  intro k
  cases k with
  | zero => exact (servoReleaseRelease_attached hw s hatt).1
  | succ m =>
    have : releaseN hw (m + 1) s = (servoReleaseRelease hw s).2 := by
      show releaseN hw m (servoReleaseRelease hw s).2 = _
      exact releaseN_fix hw ht.1 ht.2 m
    rw [this]
    exact (servoReleaseRelease_fix hw ht.1 ht.2).1

/-- Witness for C3: an attached, locked, unlatched module, two Release
calls, and a subsequent Lock command before the final Lock query. -/
theorem release_latch_witness :
    releaseN true 2 ⟨true, false, ServoReleaseState.locked⟩ =
      (servoReleaseRelease true ⟨true, false, ServoReleaseState.locked⟩).2
    ∧ (∀ k : Nat, (servoReleaseRelease true
        (releaseN true k ⟨true, false, ServoReleaseState.locked⟩)).1 = true)
    ∧ servoReleaseIsReleased
        (applyServoCmds [ServoCmd.lock true]
          (servoReleaseRelease true
            ⟨true, false, ServoReleaseState.locked⟩).2) = true
    ∧ (applyServoCmds [ServoCmd.lock true]
        (servoReleaseRelease true
          ⟨true, false, ServoReleaseState.locked⟩).2).state =
        ServoReleaseState.released
    ∧ (servoReleaseLock true
        (applyServoCmds [ServoCmd.lock true]
          (servoReleaseRelease true
            ⟨true, false, ServoReleaseState.locked⟩).2)).1 = false
    ∧ (servoReleaseLock true
        (applyServoCmds [ServoCmd.lock true]
          (servoReleaseRelease true
            ⟨true, false, ServoReleaseState.locked⟩).2)).2.state =
        ServoReleaseState.released
    ∧ servoReleaseIsReleased
        (servoReleaseLock true
          (applyServoCmds [ServoCmd.lock true]
            (servoReleaseRelease true
              ⟨true, false, ServoReleaseState.locked⟩).2)).2 = true :=
  release_latch ⟨true, false, ServoReleaseState.locked⟩ rfl rfl 2 (by decide)
    true [ServoCmd.lock true]

/-- A guarded maximum written as the source writes it. -/
theorem ite_lt_max (a b : ℚ) : (if a < b then b else a) = max a b := by
  rcases le_or_lt b a with h | h
  · rw [if_neg (not_lt.mpr h), max_eq_left h]
  · rw [if_pos h, max_eq_right h.le]

/-- A guarded minimum written as the source writes it. -/
theorem ite_lt_min (a b : ℚ) : (if a < b then a else b) = min b a := by
  rcases le_or_lt b a with h | h
  · rw [if_neg (not_lt.mpr h), min_eq_left h]
  · rw [if_pos h, min_eq_right h.le]

/-- Modelled from the spec's description of the termination detector
(section 4.4), compared against stateUpdateTerminationDetector1Hz: the
updated peak altitude of the GPS path this tick. -/
def termPeak (tcfg : TerminationDetectConfig) (r : Readings)
    (s : RuntimeState) : ℚ :=
  if tcfg.use_gps && r.gps_fix_valid && r.gps_alt_valid then
    max s.peak_alt_m r.gps_alt_m
  else s.peak_alt_m

/-- Modelled from the spec: the updated minimum pressure of the pressure
path this tick. -/
def termPMin (tcfg : TerminationDetectConfig) (r : Readings)
    (s : RuntimeState) : ℚ :=
  if tcfg.use_pressure && r.pressure_valid then
    min s.min_pressure_hpa r.pressure_hpa
  else s.min_pressure_hpa

/-- Modelled from the spec: the descent predicate — peak-drop at least
gps_drop_m on the enabled-and-valid GPS path, or min-rise at least
pressure_rise_hpa on the enabled-and-valid pressure path. -/
def descentPredicate (tcfg : TerminationDetectConfig) (r : Readings)
    (s : RuntimeState) : Bool :=
  (tcfg.use_gps && r.gps_fix_valid && r.gps_alt_valid &&
    decide (tcfg.gps_drop_m ≤ termPeak tcfg r s - r.gps_alt_m)) ||
  (tcfg.use_pressure && r.pressure_valid &&
    decide (tcfg.pressure_rise_hpa ≤ r.pressure_hpa - termPMin tcfg r s))

/-- Modelled from the spec: the descent counter after this tick —
increment saturating at 0xFFFF on a predicate-true tick, reset to 0
otherwise. -/
def termCount (tcfg : TerminationDetectConfig) (r : Readings)
    (s : RuntimeState) : Nat :=
  if descentPredicate tcfg r s then min (s.descent_count_s + 1) 65535 else 0

/-- C8: the termination detector acts only while in flight with the
latch clear and the detector enabled (otherwise the state is unchanged);
on an acting tick it updates the peak and minimum, sets descent_count_s
to the saturating increment exactly when the descent predicate holds and
to 0 otherwise, latches terminated (with the flight-state transition to
Terminated) exactly when the count reaches sustain_s, and never touches
cut_fired or cut_reason. -/
theorem termination_detector_behavior (tcfg : TerminationDetectConfig)
    (r : Readings) (n : Nat) (s : RuntimeState)
    (hcnt : s.descent_count_s ≤ 65535) :
    (s.terminated = true → stateUpdateTerminationDetector1Hz tcfg r n s = s)
    ∧ (s.flight_state ≠ FlightState.inFlight →
        stateUpdateTerminationDetector1Hz tcfg r n s = s)
    ∧ (tcfg.enabled = false →
        stateUpdateTerminationDetector1Hz tcfg r n s = s)
    ∧ (s.terminated = false → s.flight_state = FlightState.inFlight →
       tcfg.enabled = true →
        (stateUpdateTerminationDetector1Hz tcfg r n s).peak_alt_m =
          termPeak tcfg r s
        ∧ (stateUpdateTerminationDetector1Hz tcfg r n s).min_pressure_hpa =
          termPMin tcfg r s
        ∧ (stateUpdateTerminationDetector1Hz tcfg r n s).descent_count_s =
          termCount tcfg r s
        ∧ ((stateUpdateTerminationDetector1Hz tcfg r n s).terminated = true ↔
          tcfg.sustain_s ≤ termCount tcfg r s)
        ∧ (tcfg.sustain_s ≤ termCount tcfg r s →
          (stateUpdateTerminationDetector1Hz tcfg r n s).flight_state =
            FlightState.terminated)
        ∧ (stateUpdateTerminationDetector1Hz tcfg r n s).cut_fired =
          s.cut_fired
        ∧ (stateUpdateTerminationDetector1Hz tcfg r n s).cut_reason =
          s.cut_reason) := by
  refine ⟨?_, ?_, ?_, ?_⟩
  · intro h
    simp [stateUpdateTerminationDetector1Hz, h]
  · intro h
    simp [stateUpdateTerminationDetector1Hz, h]
  · intro h
    simp [stateUpdateTerminationDetector1Hz, h]
  · intro h1 h2 h3
    have hsat : (if s.descent_count_s < 65535 then s.descent_count_s + 1
        else s.descent_count_s) = min (s.descent_count_s + 1) 65535 := by
      split
      · omega
      · omega
    have hstep : stateUpdateTerminationDetector1Hz tcfg r n s =
        (if tcfg.sustain_s ≤ termCount tcfg r s then
          stateSetTerminated n
            { s with peak_alt_m := termPeak tcfg r s,
                     min_pressure_hpa := termPMin tcfg r s,
                     descent_count_s := termCount tcfg r s }
        else
          { s with peak_alt_m := termPeak tcfg r s,
                   min_pressure_hpa := termPMin tcfg r s,
                   descent_count_s := termCount tcfg r s }) := by
      unfold stateUpdateTerminationDetector1Hz termCount descentPredicate
        termPeak termPMin
      simp only [h1, h2, h3, ite_lt_max, ite_lt_min, hsat,
        Bool.false_eq_true, Bool.true_eq_false, if_false, ne_eq,
        not_true_eq_false, reduceIte]
    rw [hstep]
    by_cases hsus : tcfg.sustain_s ≤ termCount tcfg r s
    · rw [if_pos hsus]
      unfold stateSetTerminated
      simp [h1, hsus]
    · rw [if_neg hsus]
      simp [h1, hsus]

/-- Termination-detector configuration of the concrete witness: enabled,
sustain 1 s, GPS path with 60 m drop, pressure path off. -/
def wTcfg : TerminationDetectConfig := ⟨true, 1, true, 60, false, 50⟩

/-- Readings of the concrete witness: valid GPS at 24,900 m, pressure
invalid. -/
def wRead : Readings := ⟨true, true, 24900, false, 0⟩

/-- Runtime state of the concrete witness: in flight, launch detected,
peak altitude 25,000 m. -/
def wTermState : RuntimeState :=
  { stateInit SystemMode.normal with
    flight_state := FlightState.inFlight
    launch_detected := true
    peak_alt_m := 25000
    min_pressure_hpa := 1000000000 }

/-- Witness for C8: an in-flight tick whose GPS drop of 100 m meets the
60 m threshold, reaching the 1 s sustain and latching termination
without touching the cut latch. -/
theorem termination_detector_behavior_witness :
    (stateUpdateTerminationDetector1Hz wTcfg wRead 5 wTermState).descent_count_s =
      termCount wTcfg wRead wTermState
    ∧ ((stateUpdateTerminationDetector1Hz wTcfg wRead 5 wTermState).terminated =
        true ↔ wTcfg.sustain_s ≤ termCount wTcfg wRead wTermState)
    ∧ (stateUpdateTerminationDetector1Hz wTcfg wRead 5 wTermState).cut_fired =
      wTermState.cut_fired := by
  have h := (termination_detector_behavior wTcfg wRead 5 wTermState
    (by decide)).2.2.2 rfl rfl rfl
  exact ⟨h.2.2.1, h.2.2.2.1, h.2.2.2.2.2.1⟩

/-- One evaluation leaves a condition's accumulator at zero or
incremented by one. -/
theorem evalCondition1Hz_acc (c : Condition) (v : ℚ) (vv : Bool) (a : ℚ) :
    (evalCondition1Hz c v vv a).2 = 0 ∨ (evalCondition1Hz c v vv a).2 = a + 1 := by
  unfold evalCondition1Hz
  split
  · exact Or.inl rfl
  · split
    · exact Or.inl rfl
    · split
      · exact Or.inl rfl
      · exact Or.inr rfl

/-- One Bucket A pass keeps the accumulator array's length and moves
each entry to zero, an old entry, or an old entry plus one. -/
theorem evalBucketA1Hz_acc (inp : CutLogicInputs) (conds : List Condition)
    (accs : List ℚ) (hlen : conds.length ≤ accs.length) :
    (evalBucketA1Hz inp conds accs).2.length = accs.length ∧
    ∀ x ∈ (evalBucketA1Hz inp conds accs).2,
      x = 0 ∨ x ∈ accs ∨ ∃ y ∈ accs, x = y + 1 := by
  induction conds generalizing accs with
  | nil => exact ⟨rfl, fun x hx => Or.inr (Or.inl hx)⟩
  | cons c cs ih =>
    have hne : accs ≠ [] := by
      intro h
      rw [h] at hlen
      simp at hlen
    obtain ⟨a, as, rfl⟩ := List.exists_cons_of_ne_nil hne
    have hlen2 : cs.length ≤ as.length := by
      simpa using Nat.le_of_succ_le_succ hlen
    have hrec := ih as hlen2
    have hhead := evalCondition1Hz_acc c (inp.vars c.var_id)
      (inp.vars_valid c.var_id) a
    have tailmem : ∀ x ∈ (evalBucketA1Hz inp cs as).2,
        x = 0 ∨ x ∈ a :: as ∨ ∃ y ∈ a :: as, x = y + 1 := by
      intro x hx
      rcases hrec.2 x hx with h0 | hm | ⟨y, hy, hxy⟩
      · exact Or.inl h0
      · exact Or.inr (Or.inl (List.mem_cons_of_mem a hm))
      · exact Or.inr (Or.inr ⟨y, List.mem_cons_of_mem a hy, hxy⟩)
    have asmem : ∀ x ∈ as, x = 0 ∨ x ∈ a :: as ∨ ∃ y ∈ a :: as, x = y + 1 :=
      fun x hx => Or.inr (Or.inl (List.mem_cons_of_mem a hx))
    have headmem : ∀ x : ℚ, x = (evalCondition1Hz c (inp.vars c.var_id)
        (inp.vars_valid c.var_id) a).2 →
        x = 0 ∨ x ∈ a :: as ∨ ∃ y ∈ a :: as, x = y + 1 := by
      intro x hx
      rcases hhead with hz | h1
      · exact Or.inl (hx.trans hz)
      · exact Or.inr (Or.inr ⟨a, List.mem_cons_self a as, hx.trans h1⟩)
    by_cases he : c.enabled = false
    · refine ⟨by simp [evalBucketA1Hz, he, hrec.1], ?_⟩
      intro x hx
      simp only [evalBucketA1Hz, he, Bool.true_eq_false, Bool.false_eq_true,
        if_true, if_false, eq_self_iff_true, List.tail_cons,
        List.mem_cons] at hx
      rcases hx with h0 | hx
      · exact Or.inl h0
      · exact tailmem x hx
    · by_cases hv : VAR__COUNT ≤ c.var_id
      · refine ⟨by simp [evalBucketA1Hz, he, hv], ?_⟩
        intro x hx
        simp only [evalBucketA1Hz, he, hv, Bool.true_eq_false,
          Bool.false_eq_true, if_true, if_false, List.tail_cons,
          List.mem_cons] at hx
        rcases hx with h0 | hx
        · exact Or.inl h0
        · exact asmem x hx
      · by_cases hs : (evalCondition1Hz c (inp.vars c.var_id)
            (inp.vars_valid c.var_id) a).1 = true
        · refine ⟨by simp [evalBucketA1Hz, he, hv, hs, hrec.1], ?_⟩
          intro x hx
          simp only [evalBucketA1Hz, he, hv, hs, Bool.true_eq_false,
            Bool.false_eq_true, if_true, if_false, List.headD_cons,
            List.tail_cons, List.mem_cons] at hx
          rcases hx with h0 | hx
          · exact headmem x h0
          · exact tailmem x hx
        · refine ⟨by simp [evalBucketA1Hz, he, hv, hs], ?_⟩
          intro x hx
          simp only [evalBucketA1Hz, he, hv, hs, Bool.true_eq_false,
            Bool.false_eq_true, if_true, if_false, List.headD_cons,
            List.tail_cons, List.mem_cons] at hx
          rcases hx with h0 | hx
          · exact headmem x h0
          · exact asmem x hx

/-- One Bucket B pass keeps the accumulator array's length and moves
each entry to zero, an old entry, or an old entry plus one. -/
theorem evalBucketB1Hz_acc (inp : CutLogicInputs) (conds : List Condition)
    (accs : List ℚ) (hlen : conds.length ≤ accs.length) :
    (evalBucketB1Hz inp conds accs).2.length = accs.length ∧
    ∀ x ∈ (evalBucketB1Hz inp conds accs).2,
      x = 0 ∨ x ∈ accs ∨ ∃ y ∈ accs, x = y + 1 := by
  induction conds generalizing accs with
  | nil => exact ⟨rfl, fun x hx => Or.inr (Or.inl hx)⟩
  | cons c cs ih =>
    have hne : accs ≠ [] := by
      intro h
      rw [h] at hlen
      simp at hlen
    obtain ⟨a, as, rfl⟩ := List.exists_cons_of_ne_nil hne
    have hlen2 : cs.length ≤ as.length := by
      simpa using Nat.le_of_succ_le_succ hlen
    have hrec := ih as hlen2
    have hhead := evalCondition1Hz_acc c (inp.vars c.var_id)
      (inp.vars_valid c.var_id) a
    have tailmem : ∀ x ∈ (evalBucketB1Hz inp cs as).2,
        x = 0 ∨ x ∈ a :: as ∨ ∃ y ∈ a :: as, x = y + 1 := by
      intro x hx
      rcases hrec.2 x hx with h0 | hm | ⟨y, hy, hxy⟩
      · exact Or.inl h0
      · exact Or.inr (Or.inl (List.mem_cons_of_mem a hm))
      · exact Or.inr (Or.inr ⟨y, List.mem_cons_of_mem a hy, hxy⟩)
    have headmem : ∀ x, x = (evalCondition1Hz c (inp.vars c.var_id)
        (inp.vars_valid c.var_id) a).2 →
        x = 0 ∨ x ∈ a :: as ∨ ∃ y ∈ a :: as, x = y + 1 := by
      intro x hx
      rcases hhead with h0 | h1
      · exact Or.inl (hx.trans h0)
      · exact Or.inr (Or.inr ⟨a, List.mem_cons_self a as, hx.trans h1⟩)
    have asmem : ∀ x ∈ as, x = 0 ∨ x ∈ a :: as ∨ ∃ y ∈ a :: as, x = y + 1 :=
      fun x hx => Or.inr (Or.inl (List.mem_cons_of_mem a hx))
    by_cases he : c.enabled = false
    · refine ⟨by simp [evalBucketB1Hz, he, hrec.1], ?_⟩
      intro x hx
      simp only [evalBucketB1Hz, he, Bool.true_eq_false, Bool.false_eq_true,
        if_true, if_false, List.tail_cons, List.mem_cons] at hx
      rcases hx with h0 | hx
      · exact Or.inl h0
      · exact tailmem x hx
    · by_cases hv : VAR__COUNT ≤ c.var_id
      · refine ⟨by simp [evalBucketB1Hz, he, hv, hrec.1], ?_⟩
        intro x hx
        simp only [evalBucketB1Hz, he, hv, Bool.true_eq_false,
          Bool.false_eq_true, if_true, if_false, List.tail_cons,
          List.mem_cons] at hx
        rcases hx with h0 | hx
        · exact Or.inl h0
        · exact tailmem x hx
      · by_cases hs : (evalCondition1Hz c (inp.vars c.var_id)
            (inp.vars_valid c.var_id) a).1 = true
        · refine ⟨by simp [evalBucketB1Hz, he, hv, hs], ?_⟩
          intro x hx
          simp only [evalBucketB1Hz, he, hv, hs, Bool.true_eq_false,
            Bool.false_eq_true, if_true, if_false, List.headD_cons,
            List.tail_cons, List.mem_cons] at hx
          rcases hx with h0 | hx
          · exact headmem x h0
          · exact asmem x hx
        · refine ⟨by simp [evalBucketB1Hz, he, hv, hs, hrec.1], ?_⟩
          intro x hx
          simp only [evalBucketB1Hz, he, hv, hs, Bool.true_eq_false,
            Bool.false_eq_true, if_true, if_false, List.headD_cons,
            List.tail_cons, List.mem_cons] at hx
          rcases hx with h0 | hx
          · exact headmem x h0
          · exact tailmem x hx

/-- One cut-logic evaluation keeps both accumulator arrays' lengths and
moves each entry to zero, an old entry, or an old entry plus one. -/
theorem cutLogicEvaluate1Hz_acc (cfg : SystemConfig) (fired : Bool)
    (inp : CutLogicInputs) (accA accB : List ℚ)
    (hA : cfg.bucketA.length ≤ accA.length)
    (hB : cfg.bucketB.length ≤ accB.length) :
    ((cutLogicEvaluate1Hz cfg fired inp accA accB).2.1.length = accA.length ∧
     (cutLogicEvaluate1Hz cfg fired inp accA accB).2.2.length = accB.length) ∧
    (∀ x ∈ (cutLogicEvaluate1Hz cfg fired inp accA accB).2.1,
      x = 0 ∨ x ∈ accA ∨ ∃ y ∈ accA, x = y + 1) ∧
    (∀ x ∈ (cutLogicEvaluate1Hz cfg fired inp accA accB).2.2,
      x = 0 ∨ x ∈ accB ∨ ∃ y ∈ accB, x = y + 1) := by
  have idA : ∀ x ∈ accA, x = 0 ∨ x ∈ accA ∨ ∃ y ∈ accA, x = y + 1 :=
    fun x hx => Or.inr (Or.inl hx)
  have idB : ∀ x ∈ accB, x = 0 ∨ x ∈ accB ∨ ∃ y ∈ accB, x = y + 1 :=
    fun x hx => Or.inr (Or.inl hx)
  unfold cutLogicEvaluate1Hz
  split
  · exact ⟨⟨rfl, rfl⟩, idA, idB⟩
  · split
    · exact ⟨⟨rfl, rfl⟩, idA, idB⟩
    · split
      · exact ⟨⟨rfl, rfl⟩, idA, idB⟩
      · split
        · refine ⟨⟨by simp, by simp⟩, ?_, ?_⟩
          · intro x hx
            simp only [List.mem_map] at hx
            obtain ⟨y, hy, rfl⟩ := hx
            exact Or.inl rfl
          · intro x hx
            simp only [List.mem_map] at hx
            obtain ⟨y, hy, rfl⟩ := hx
            exact Or.inl rfl
        · have ha := evalBucketA1Hz_acc inp cfg.bucketA accA hA
          have hb := evalBucketB1Hz_acc inp cfg.bucketB accB hB
          dsimp only
          split
          · exact ⟨⟨ha.1, hb.1⟩, ha.2, hb.2⟩
          · exact ⟨⟨ha.1, hb.1⟩, ha.2, hb.2⟩

/-- C5 (amended): starting from the zeroed accumulators of cutLogicInit,
after n evaluation ticks every dwell accumulator of both buckets lies in
[0, n]; the accumulators are nonnegative but not bounded by
for_seconds + 1. -/
theorem dwell_accumulator_bounds (cfg : SystemConfig) {n : Nat}
    {s : CutEngineState} (h : CutEngineReachableN cfg n s) :
    s.accA.length = cfg.bucketA.length ∧
    s.accB.length = cfg.bucketB.length ∧
    (∀ x ∈ s.accA, 0 ≤ x ∧ x ≤ (n : ℚ)) ∧
    (∀ x ∈ s.accB, 0 ≤ x ∧ x ≤ (n : ℚ)) := by
  induction h with
  | init =>
    refine ⟨by simp [cutEngineInit], by simp [cutEngineInit], ?_, ?_⟩
    · intro x hx
      rw [List.eq_of_mem_replicate hx]
      simp
    · intro x hx
      rw [List.eq_of_mem_replicate hx]
      simp
  | @step m t inp ht ih =>
    obtain ⟨l1, l2, b1, b2⟩ := ih
    have hacc := cutLogicEvaluate1Hz_acc cfg t.cut_fired inp t.accA t.accB
      (le_of_eq l1.symm) (le_of_eq l2.symm)
    have cast1 : (m : ℚ) ≤ ((m + 1 : Nat) : ℚ) := by
      push_cast
      linarith
    refine ⟨hacc.1.1.trans l1, hacc.1.2.trans l2, ?_, ?_⟩
    · intro x hx
      rcases hacc.2.1 x hx with h0 | hm | ⟨y, hy, hxy⟩
      · constructor
        · rw [h0]
        · rw [h0]
          positivity
      · exact ⟨(b1 x hm).1, le_trans (b1 x hm).2 cast1⟩
      · refine ⟨?_, ?_⟩
        · rw [hxy]
          have := (b1 y hy).1
          linarith
        · rw [hxy]
          have := (b1 y hy).2
          push_cast
          linarith
    · intro x hx
      rcases hacc.2.2 x hx with h0 | hm | ⟨y, hy, hxy⟩
      · constructor
        · rw [h0]
        · rw [h0]
          positivity
      · exact ⟨(b2 x hm).1, le_trans (b2 x hm).2 cast1⟩
      · refine ⟨?_, ?_⟩
        · rw [hxy]
          have := (b2 y hy).1
          linarith
        · rw [hxy]
          have := (b2 y hy).2
          push_cast
          linarith

/-- Configuration of the C5 counterexample: one enabled Bucket A
condition (t_power_s at least 0, 1 s dwell), Bucket B empty, both gates
off, no immediate cut sources. -/
def cex5Cfg : SystemConfig :=
  { global_cutdown := ⟨false, false⟩
    bucketA := [⟨true, 0, 3, 0, 1⟩]
    bucketB := []
    external_inputs := fun _ => ⟨false, true, 50⟩
    iridium := ⟨false, false, []⟩
    device := ⟨1234567⟩
    term := ⟨false, 15, false, 60, false, 50⟩ }

/-- Inputs of the C5 counterexample: every variable valid at 0, no
gates satisfied, no immediate cut sources. -/
def cex5Inp : CutLogicInputs :=
  { vars := fun _ => 0
    vars_valid := fun _ => true
    launch_detected := false
    gps_fix_present := false
    external_cut_active := fun _ => false
    iridium_remote_cut_request := false }

/-- Counterexample to C5 as stated: after three ticks the reachable
accumulator of the only Bucket A condition is 3, while its
for_seconds is 1, so the accumulator exceeds for_seconds + 1 ticks. -/
theorem dwell_accumulator_bounds_cex :
    CutEngineReachableN cex5Cfg 3
      (cutEngineStep cex5Cfg cex5Inp (cutEngineStep cex5Cfg cex5Inp
        (cutEngineStep cex5Cfg cex5Inp (cutEngineInit cex5Cfg))))
    ∧ (cutEngineStep cex5Cfg cex5Inp (cutEngineStep cex5Cfg cex5Inp
        (cutEngineStep cex5Cfg cex5Inp (cutEngineInit cex5Cfg)))).accA = [3]
    ∧ (cex5Cfg.bucketA.headD ⟨false, 0, 0, 0, 0⟩).for_seconds = 1
    ∧ ¬ ((3 : ℚ) ≤ (1 : ℚ) + 1) := by
  have h1 : cutEngineStep cex5Cfg cex5Inp (cutEngineInit cex5Cfg) =
      ⟨false, [1], []⟩ := by
    simp [cutEngineStep, cutEngineInit, cutLogicEvaluate1Hz, cex5Cfg, cex5Inp,
      anyEnabledExternalActive, globalsAllowRuleCut, evalBucketA1Hz,
      evalBucketB1Hz, evalCondition1Hz, compare]
  have h2 : cutEngineStep cex5Cfg cex5Inp ⟨false, [1], []⟩ =
      ⟨false, [2], []⟩ := by
    simp [cutEngineStep, cutEngineInit, cutLogicEvaluate1Hz, cex5Cfg, cex5Inp,
      anyEnabledExternalActive, globalsAllowRuleCut, evalBucketA1Hz,
      evalBucketB1Hz, evalCondition1Hz, compare]
    norm_num
  have h3 : cutEngineStep cex5Cfg cex5Inp ⟨false, [2], []⟩ =
      ⟨false, [3], []⟩ := by
    simp [cutEngineStep, cutEngineInit, cutLogicEvaluate1Hz, cex5Cfg, cex5Inp,
      anyEnabledExternalActive, globalsAllowRuleCut, evalBucketA1Hz,
      evalBucketB1Hz, evalCondition1Hz, compare]
    norm_num
  refine ⟨CutEngineReachableN.step cex5Inp (CutEngineReachableN.step cex5Inp
    (CutEngineReachableN.step cex5Inp CutEngineReachableN.init)), ?_, rfl,
    by norm_num⟩
  rw [h1, h2, h3]

/-- Witness for C5 (amended): the bounds after one tick of the
counterexample configuration. -/
theorem dwell_accumulator_bounds_witness :
    (cutEngineStep cex5Cfg cex5Inp (cutEngineInit cex5Cfg)).accA.length =
      cex5Cfg.bucketA.length ∧
    (cutEngineStep cex5Cfg cex5Inp (cutEngineInit cex5Cfg)).accB.length =
      cex5Cfg.bucketB.length ∧
    (∀ x ∈ (cutEngineStep cex5Cfg cex5Inp (cutEngineInit cex5Cfg)).accA,
      0 ≤ x ∧ x ≤ ((1 : Nat) : ℚ)) ∧
    (∀ x ∈ (cutEngineStep cex5Cfg cex5Inp (cutEngineInit cex5Cfg)).accB,
      0 ≤ x ∧ x ≤ ((1 : Nat) : ℚ)) :=
  dwell_accumulator_bounds cex5Cfg
    (CutEngineReachableN.step cex5Inp CutEngineReachableN.init)

/-- Inputs of the C6 counterexample: variable 0 valid at 0, every other
variable invalid. -/
def cex6Inp : CutLogicInputs :=
  { vars := fun _ => 0
    vars_valid := fun i => i == 0
    launch_detected := false
    gps_fix_present := false
    external_cut_active := fun _ => false
    iridium_remote_cut_request := false }

/-- First Bucket A slot of the C6 counterexample: enabled, immediate,
variable 0 strictly above 0 — unsatisfied this tick. -/
def cexC0 : Condition := ⟨true, 0, 4, 0, 0⟩

/-- Second Bucket A slot of the C6 counterexample: enabled with a 5 s
dwell on variable 1, which is invalid this tick. -/
def cexC1 : Condition := ⟨true, 1, 3, 0, 5⟩

/-- Counterexample to C6 as stated: with the rule engine evaluated on a
tick where the enabled second condition's variable is invalid but the
first condition fails, Bucket A exits early and the second condition's
dwell accumulator stays at 3 instead of resetting to 0. -/
theorem invalid_var_resets_dwell_cex :
    cexC1.enabled = true
    ∧ cex6Inp.vars_valid cexC1.var_id = false
    ∧ (evalBucketA1Hz cex6Inp [cexC0, cexC1] [0, 3]).2 = [0, 3]
    ∧ (evalBucketA1Hz cex6Inp [cexC0, cexC1] [0, 3]).2.getD 1 0 ≠ 0 := by
  have hres : evalBucketA1Hz cex6Inp [cexC0, cexC1] [0, 3] =
      (false, [0, 3]) := by
    simp [evalBucketA1Hz, evalCondition1Hz, compare, cexC0, cexC1, cex6Inp]
  refine ⟨rfl, rfl, by rw [hres], ?_⟩
  rw [hres]
  norm_num

/-- C6 (amended): whenever the per-condition evaluator actually runs on
a condition this tick with its referenced variable invalid, it returns
unsatisfied and resets the dwell accumulator to 0; in particular the
bucket's first evaluated enabled condition with an invalid variable has
its accumulator reset, in Bucket A and in Bucket B. Conditions skipped
by a bucket's early exit keep their accumulators. -/
theorem invalid_var_resets_dwell :
    (∀ (c : Condition) (v : ℚ) (a : ℚ),
      evalCondition1Hz c v false a = (false, 0))
    ∧ (∀ (inp : CutLogicInputs) (c : Condition) (cs : List Condition)
        (accs : List ℚ), c.enabled = true → c.var_id < VAR__COUNT →
        inp.vars_valid c.var_id = false →
        (evalBucketA1Hz inp (c :: cs) accs).1 = false ∧
        (evalBucketA1Hz inp (c :: cs) accs).2.headD 0 = 0)
    ∧ (∀ (inp : CutLogicInputs) (c : Condition) (cs : List Condition)
        (accs : List ℚ), c.enabled = true → c.var_id < VAR__COUNT →
        inp.vars_valid c.var_id = false →
        (evalBucketB1Hz inp (c :: cs) accs).2.headD 0 = 0) := by
  have hcond : ∀ (c : Condition) (v : ℚ) (a : ℚ),
      evalCondition1Hz c v false a = (false, 0) := by
    intro c v a
    simp [evalCondition1Hz]
  refine ⟨hcond, ?_, ?_⟩
  · intro inp c cs accs he hv hval
    have : evalBucketA1Hz inp (c :: cs) accs =
        (false, 0 :: accs.tail) := by
      simp [evalBucketA1Hz, he, Nat.not_le.mpr hv, hval, hcond]
    rw [this]
    exact ⟨rfl, rfl⟩
  · intro inp c cs accs he hv hval
    have : evalBucketB1Hz inp (c :: cs) accs =
        ((evalBucketB1Hz inp cs accs.tail).1,
          0 :: (evalBucketB1Hz inp cs accs.tail).2) := by
      simp [evalBucketB1Hz, he, Nat.not_le.mpr hv, hval, hcond]
    rw [this]
    rfl

/-- Witness for C6 (amended): the first Bucket A slot with an invalid
variable and a nonzero accumulator is reset and unsatisfied. -/
theorem invalid_var_resets_dwell_witness :
    (evalBucketA1Hz cex6Inp [cexC1] [5]).1 = false ∧
    (evalBucketA1Hz cex6Inp [cexC1] [5]).2.headD 0 = 0 :=
  invalid_var_resets_dwell.2.1 cex6Inp cexC1 [] [5] rfl (by decide) rfl

/-- Scheduler state of the C7 scenario after the initializing call at
0 ms. -/
def c7s1 : Scheduler1Hz := (stateTick1Hz 0 ⟨0, false, 0⟩).2

/-- Scheduler state of the C7 scenario after the tick at 1000 ms. -/
def c7s2 : Scheduler1Hz := (stateTick1Hz 1000 c7s1).2

/-- Scheduler state of the C7 scenario after the stalled call at
12,500 ms. -/
def c7s3 : Scheduler1Hz := (stateTick1Hz 12500 c7s2).2

/-- Counterexample to C7 as stated: in the S6 scenario the call at
12,500 ms emits one tick whose recorded elapsed seconds are 11, not 12
(e = 1 + (12,500 - 2,000) / 1000 = 11, the deadline having advanced to
2,000 ms at the 1000 ms tick). -/
theorem scheduler_stall_cex :
    (stateTick1Hz 12500 c7s2).1 = true ∧
    c7s3.last_elapsed_s = 11 ∧
    ¬ c7s3.last_elapsed_s = 12 := by
  decide

/-- C7 (amended): after initialization at 0 ms and a tick at 1000 ms, a
stalled call at 12,500 ms emits exactly one tick reporting 11 elapsed
seconds, with the deadline advanced by e * 1000 to 13,000 ms and no
snapping; the subsequent once-per-second calls at 13,500 ms and
14,500 ms each emit a tick reporting 1. -/
theorem scheduler_stall_recovery :
    (stateTick1Hz 0 ⟨0, false, 0⟩).1 = false
    ∧ c7s1.next_tick_ms = 1000
    ∧ (stateTick1Hz 1000 c7s1).1 = true
    ∧ c7s2.last_elapsed_s = 1
    ∧ c7s2.next_tick_ms = 2000
    ∧ (stateTick1Hz 12500 c7s2).1 = true
    ∧ c7s3.last_elapsed_s = 11
    ∧ c7s3.next_tick_ms = 13000
    ∧ (stateTick1Hz 13500 c7s3).1 = true
    ∧ (stateTick1Hz 13500 c7s3).2.last_elapsed_s = 1
    ∧ (stateTick1Hz 14500 (stateTick1Hz 13500 c7s3).2).1 = true
    ∧ (stateTick1Hz 14500 (stateTick1Hz 13500 c7s3).2).2.last_elapsed_s = 1 := by
  decide

/-- Decimal accumulation never decreases the running value. -/
theorem foldVal_le (l : List Char) (serial : Nat) :
    serial ≤ l.foldl (fun a c => a * 10 + digitVal c) serial := by
  induction l generalizing serial with
  | nil => exact le_refl serial
  | cons c cs ih =>
    exact le_trans (by omega) (ih (serial * 10 + digitVal c))

/-- The serial loop consumes exactly the maximal digit run, returning
its accumulated value and the rest, and fails exactly when the
accumulated value passes 9,999,999. -/
theorem parseSerialLoop_eq (l : List Char) (serial : Nat) (any : Bool)
    (hs : serial ≤ 9999999) :
    parseSerialLoop serial any l =
      (if (l.takeWhile isDigitCh).foldl
            (fun a c => a * 10 + digitVal c) serial ≤ 9999999 then
        some ((l.takeWhile isDigitCh).foldl
            (fun a c => a * 10 + digitVal c) serial,
          any || !(l.takeWhile isDigitCh).isEmpty, l.dropWhile isDigitCh)
      else Option.none) := by
  induction l generalizing serial any with
  | nil => simp [parseSerialLoop, hs]
  | cons c cs ih =>
    by_cases hd : isDigitCh c = true
    · by_cases hbig : 9999999 < serial * 10 + digitVal c
      · have hv : 9999999 < (cs.takeWhile isDigitCh).foldl
            (fun a c => a * 10 + digitVal c) (serial * 10 + digitVal c) :=
          lt_of_lt_of_le hbig (foldVal_le _ _)
        simp only [parseSerialLoop, hd, if_true, hbig, List.takeWhile_cons,
          List.dropWhile_cons, List.foldl_cons]
        rw [if_neg (Nat.not_le.mpr hv)]
      · have hs2 : serial * 10 + digitVal c ≤ 9999999 := Nat.not_lt.mp hbig
        rw [show parseSerialLoop serial any (c :: cs) =
          parseSerialLoop (serial * 10 + digitVal c) true cs by
            simp [parseSerialLoop, hd, hbig]]
        rw [ih (serial * 10 + digitVal c) true hs2]
        simp [hd]
    · simp [parseSerialLoop, hd, hs]

/-- The token-copy loop is the CR/LF-stopped run capped at the buffer
size. -/
theorem takeTokenRx_eq (n : Nat) (l : List Char) :
    takeTokenRx n l =
      (l.takeWhile fun c => !(c == '\r' || c == '\n')).take n := by
  induction l generalizing n with
  | nil => cases n <;> simp [takeTokenRx]
  | cons c cs ih =>
    cases n with
    | zero => simp [takeTokenRx]
    | succ m =>
      by_cases hr : (c == '\r') = true
      · simp [takeTokenRx, hr]
      · by_cases hn : (c == '\n') = true
        · simp [takeTokenRx, hr, hn]
        · simp [takeTokenRx, hr, hn, ih]

/-- Against a string shorter than the byte cap, the bounded string
comparison is plain equality. -/
theorem strncmpEq_iff (n : Nat) (a b : List Char) (hb : b.length < n) :
    strncmpEq n a b = true ↔ a = b := by
  induction b generalizing a n with
  | nil =>
    cases n with
    | zero => omega
    | succ m =>
      cases a with
      | nil => simp [strncmpEq]
      | cons x xs => simp [strncmpEq]
  | cons y ys ih =>
    cases n with
    | zero => exact absurd hb (by omega)
    | succ m =>
      cases a with
      | nil => simp [strncmpEq]
      | cons x xs =>
        have hlen : ys.length < m := by
          simpa using Nat.lt_of_succ_lt_succ hb
        simp [strncmpEq, Bool.and_eq_true, beq_iff_eq, ih m xs hlen]

/-- C9 (amended): the remote-cut parser accepts a message exactly when
remote cutdown-on-command is enabled and the message is case-insensitive
CUT, a comma, a nonempty decimal digit run whose value is the device
serial, a comma, and a token part which — read only up to the first CR
or LF and at most 31 characters, then stripped of trailing spaces and
tabs — equals the configured token; content beyond the first CR or LF is
ignored rather than rejected. The hypotheses record the configuration
validation (serial at most 9,999,999) and the 16-byte null-terminated
token buffer (at most 15 characters). -/
theorem parseCutCommand_eq (serial_number : Nat) (enab : Bool)
    (token msg : List Char) (hser : serial_number ≤ 9999999)
    (htok : token.length ≤ 15) :
    parseCutCommand serial_number enab token msg =
      (enab && specCutFormatAmended serial_number token msg) := by
  match msg with
  | [] => simp [parseCutCommand, specCutFormatAmended]
  | [c0] => simp [parseCutCommand, specCutFormatAmended]
  | [c0, c1] => simp [parseCutCommand, specCutFormatAmended]
  | [c0, c1, c2] => simp [parseCutCommand, specCutFormatAmended]
  | c0 :: c1 :: c2 :: c3 :: rest =>
    unfold parseCutCommand specCutFormatAmended
    by_cases h0 : (c0 == 'C' || c0 == 'c') = true
    case neg => simp [h0]
    by_cases h1 : (c1 == 'U' || c1 == 'u') = true
    case neg => simp [h0, h1]
    by_cases h2 : (c2 == 'T' || c2 == 't') = true
    case neg => simp [h0, h1, h2]
    by_cases h3 : (c3 == ',') = true
    case neg => simp [h0, h1, h2, h3]
    simp only [h0, h1, h2, h3, Bool.not_true, Bool.false_eq_true, if_false,
      Bool.true_and]
    rw [parseSerialLoop_eq rest 0 false (by omega)]
    by_cases hbig : (rest.takeWhile isDigitCh).foldl
        (fun a c => a * 10 + digitVal c) 0 ≤ 9999999
    case neg =>
      rw [if_neg hbig]
      have hne : (digitsVal (rest.takeWhile isDigitCh) == serial_number) =
          false := by
        have : digitsVal (rest.takeWhile isDigitCh) ≠ serial_number := by
          unfold digitsVal
          omega
        simp [this]
      simp [hne]
    rw [if_pos hbig]
    by_cases hemp : (rest.takeWhile isDigitCh).isEmpty = true
    case pos => simp [hemp]
    simp only [hemp, Bool.not_false, Bool.or_true, Bool.false_or]
    cases hafter : rest.dropWhile isDigitCh with
    | nil => simp
    | cons d r3 =>
      by_cases hcomma : (d == ',') = true
      case neg =>
        simp [hcomma]
      simp only [hcomma, Bool.not_true, Bool.false_eq_true, if_false,
        Bool.true_and]
      rw [takeTokenRx_eq]
      by_cases hs2 : (rest.takeWhile isDigitCh).foldl
          (fun a c => a * 10 + digitVal c) 0 = serial_number
      case neg =>
        have hne : (digitsVal (rest.takeWhile isDigitCh) == serial_number) =
            false := by
          unfold digitsVal
          simp [hs2]
        simp [hs2, hne]
      have heq : (digitsVal (rest.takeWhile isDigitCh) == serial_number) =
          true := by
        unfold digitsVal
        simp [hs2]
      have hcmp : ∀ a : List Char, strncmpEq 16 a token = (a == token) := by
        intro a
        by_cases h : a = token
        · subst h
          simp [(strncmpEq_iff 16 a a (by omega)).mpr rfl]
        · have hf : strncmpEq 16 a token = false := by
            cases hb : strncmpEq 16 a token
            · rfl
            · exact absurd ((strncmpEq_iff 16 a token (by omega)).mp hb) h
          simp [hf, h]
      cases enab with
      | false => simp [hs2, heq]
      | true =>
        simp only [hs2, heq, Bool.true_and, ne_eq, not_true_eq_false,
          Bool.false_eq_true, if_false, if_true, reduceIte]
        rw [hcmp]
        cases hb : (rtrimSpTab ((r3.takeWhile
            fun c => !(c == '\r' || c == '\n')).take 31) == token)
        · simp [hb]
        · simp [hb]
/-- Counterexample to C9 as stated: the parser accepts a message with
non-whitespace content after a line feed — a deviation from the spec's
CUT,serial,token-plus-trailing-whitespace format, which the spec's
format predicate rejects — because it stops reading the token at the
first CR or LF and ignores the remainder. -/
theorem parseCutCommand_cex :
    parseCutCommand 1234567 true "CUTDOWN".toList
      "CUT,1234567,CUTDOWN\nX".toList = true ∧
    specCutFormat 1234567 "CUTDOWN".toList
      "CUT,1234567,CUTDOWN\nX".toList = false := by
  constructor
  · decide
  · decide

/-- Witness for C9 (amended): the default token and a 7-digit serial on
a message with trailing spaces. -/
theorem parseCutCommand_eq_witness :
    (1234567 ≤ 9999999 ∧ "CUTDOWN".toList.length ≤ 15) ∧
    parseCutCommand 1234567 true "CUTDOWN".toList
      "CUT,1234567,CUTDOWN  ".toList =
      (true && specCutFormatAmended 1234567 "CUTDOWN".toList
        "CUT,1234567,CUTDOWN  ".toList) :=
  ⟨⟨by decide, by decide⟩,
   parseCutCommand_eq 1234567 true "CUTDOWN".toList
     "CUT,1234567,CUTDOWN  ".toList (by decide) (by decide)⟩

end SkyGuard
